import Mathlib

/-!
Verification of the package-assembly stage of ng-packagr: a shallow
embedding of the asset resolution and copy engine, the manifest assembly
step (`writePackageJson`), the conditional export-map generator
(`generatePackageExports` / `insertMappingOrError`), the watch
pseudo-version (`generateWatchVersion`), the secondary-entry-point branch
of `writePackageTransform`, and the `WorkerPool` constructor options.

Source files: `src/unnamed/part_000` (the transform) and
`src/scripts/postbuild.js` (second document: the WorkerPool class).

Modelling conventions: JavaScript objects with string keys are ordered
association lists with unique keys; promise rejection is `Except.error`;
`Date.now()` is an explicit natural-number timestamp argument;
regular-expression allow-lists are lists of match predicates on strings;
the filesystem and the glob engine are explicit collaborator parameters,
and the operations the code performs on them are returned as traces.
-/

/-! ## JavaScript object model -/

/-- Object property read on an ordered association list: first binding of
the key, if any. -/
def alGet {α : Type} (m : List (String × α)) (k : String) : Option α :=
  match m with
  | [] => none
  | (k0, v0) :: rest => if k0 = k then some v0 else alGet rest k

/-- Object property write: replaces the value in place when the key is
present (JavaScript objects keep the original key position), appends a new
binding otherwise. -/
def alSet {α : Type} (m : List (String × α)) (k : String) (v : α) : List (String × α) :=
  match m with
  | [] => [(k, v)]
  | (k0, v0) :: rest => if k0 = k then (k0, v) :: rest else (k0, v0) :: alSet rest k v

/-- Object property deletion. -/
def alDelete {α : Type} (m : List (String × α)) (k : String) : List (String × α) :=
  m.filter (fun kv => kv.1 ≠ k)

/-- A JavaScript object with string values, insertion order significant. -/
abbrev StrMap := List (String × String)

/-- Truthiness of an optional JavaScript string value: present and
nonempty (the empty string is falsy). -/
def jsTruthy : Option String → Bool
  | none => false
  | some s => s ≠ ""

/-! ## Path model

Absolute paths are normalized component lists; the Node `path` functions
used by the source are modelled on components, with the rendered string
form produced by `renderAbs`. -/

/-- JavaScript String.prototype.startsWith, on the character sequence. -/
def strStartsWith (s pre : String) : Bool := pre.data.isPrefixOf s.data

/-- Split a character list on a separator character. -/
def splitOnChar (sep : Char) : List Char → List (List Char)
  | [] => [[]]
  | c :: rest =>
    let r := splitOnChar sep rest
    if c = sep then [] :: r
    else
      match r with
      | [] => [[c]]
      | g :: gs => (c :: g) :: gs

/-- Path components of a POSIX path string: split on slashes, dropping
empty segments. -/
def splitPath (s : String) : List String :=
  ((splitOnChar '/' s.data).map (fun l => String.mk l)).filter (fun c => c ≠ "")

/-- Resolve "." and ".." segments against an accumulated absolute
component list, as Node path normalization does for absolute paths (a
".." at the root is dropped). -/
def normSegs (acc : List String) : List String → List String
  | [] => acc
  | "." :: rest => normSegs acc rest
  | ".." :: rest => normSegs acc.dropLast rest
  | c :: rest => normSegs (acc ++ [c]) rest

/-- Node `path.join` of an absolute base (components) with a further path
string, including normalization. -/
def joinAbs (base : List String) (rel : String) : List String :=
  normSegs base (splitPath rel)

/-- Render an absolute component list back to a path string. -/
def renderAbs (p : List String) : String :=
  "/" ++ String.intercalate "/" p

/-- Strip the longest common leading run of components from two component
lists. -/
def stripCommon : List String → List String → List String × List String
  | a :: as, b :: bs => if a = b then stripCommon as bs else (a :: as, b :: bs)
  | as, bs => (as, bs)

/-- Node `path.relative` between absolute component lists: one ".." per
component remaining in the origin after the common run, then the
components remaining in the target. -/
def relativeSegs (fromP toP : List String) : List String :=
  let s := stripCommon fromP toP
  List.replicate s.1.length ".." ++ s.2

/-- The string-level test the source performs on a relative path: whether
it starts with "..". An empty component list renders as the empty string;
otherwise the rendered string starts with its first component. -/
def segsStartWithDotDot : List String → Bool
  | [] => false
  | c :: _ => strStartsWith c ".."

/-- The `isAncestorPath` helper of `copyAssets` (part_000 line 147):
`path.relative(datum, target).startsWith("..")`. -/
def isAncestorPath (target datum : List String) : Bool :=
  segsStartWithDotDot (relativeSegs datum target)

/-- The target lies within (at or below) the root: the root is exhausted
by the common run of `stripCommon`. -/
def isWithin (root p : List String) : Prop :=
  (stripCommon root p).1 = []

instance (root p : List String) : Decidable (isWithin root p) := by
  unfold isWithin; infer_instance

/-- Node `path.basename`: the last nonempty path component ("" when there
is none). -/
def basename (s : String) : String := (splitPath s).getLastD ""

/-- Node `path.dirname`: the path with its last component removed; "." for
a bare relative name, "/" for a file directly under the root. -/
def dirname (s : String) : String :=
  let ps := splitPath s
  let isAbs := strStartsWith s "/"
  match ps.dropLast with
  | [] => if isAbs then "/" else "."
  | ds => (if isAbs then "/" else "") ++ String.intercalate "/" ds

/-- The `ensureUnixPath` helper from the utils collaborator: backslashes become
forward slashes. -/
def ensureUnixPath (s : String) : String :=
  String.mk (s.data.map (fun ch => if ch = '\\' then '/' else ch))

/-! ## Asset resolution and copy engine (part_000 lines 106-179) -/

/-- Structured asset declaration (the object form of `AssetPattern`);
`input` and `output` are as declared, before joining against the package
roots. -/
structure AssetEntry where
  glob : String
  input : String
  output : String
  ignore : Option (List String) := none
  followSymlinks : Option Bool := none
deriving Repr, DecidableEq

/-- A declared asset: a structured entry or a bare path string. -/
inductive AssetPattern where
  | entry (e : AssetEntry)
  | str (s : String)
deriving Repr, DecidableEq

/-- The slice of the package descriptor consumed by `copyAssets`: absolute
source and destination roots and the declared assets. -/
structure NgPackageModel where
  src : List String
  dest : List String
  assets : List AssetPattern
deriving Repr, DecidableEq

/-- An asset entry whose input and output have been joined against the
package source and destination roots (lines 144-145). -/
structure ResolvedAsset where
  glob : String
  input : List String
  output : List String
  ignore : Option (List String)
  followSymlinks : Option Bool
deriving Repr, DecidableEq

/-- Default assets (lines 116-123): the LICENSE file at the package root
and one README.md rooted at each entry point output directory ("/" when
that directory is the empty string, via JavaScript falsiness). -/
def defaultAssets (entryPointDirs : List String) : List AssetPattern :=
  AssetPattern.entry { glob := "LICENSE", input := "/", output := "/" } ::
    entryPointDirs.map (fun dir =>
      let subpath := if dir = "" then "/" else dir
      AssetPattern.entry { glob := "README.md", input := subpath, output := subpath })

/-- Resolution of one declared asset (lines 127-142): objects are copied
as is; a bare string is stat-probed under the source root — a directory
becomes glob "**/*" rooted at the path, a file becomes its own basename
rooted at its containing directory, and anything else (including a failed
probe, which the source swallows with `.catch`, and a probe that reports
neither a file nor a directory) falls back to the string itself as a glob
rooted at "/". The probe returns the `(isDirectory, isFile)` pair;
`Except.error` models a rejected stat promise. -/
def resolveEntry (probe : String → Except Unit (Bool × Bool)) (src : List String) :
    AssetPattern → AssetEntry
  | .entry e => e
  | .str s =>
    let statRes := match probe (renderAbs (joinAbs src s)) with
      | .error _ => (false, false)
      | .ok r => r
    if statRes.1 then { glob := "**/*", input := s, output := s }
    else if statRes.2 then
      { glob := basename s, input := dirname s, output := dirname s }
    else { glob := s, input := "/", output := "/" }

/-- Message of the input-containment error (line 149). -/
def assetReadError : String :=
  "Cannot read assets from a location outside of the project root."

/-- Message of the output-containment error (line 152). -/
def assetWriteError : String :=
  "Cannot write assets to a location outside of the output path."

/-- Joining of one resolved entry against the roots (lines 144-145). -/
def joinAsset (pkg : NgPackageModel) (e : AssetEntry) : ResolvedAsset :=
  { glob := e.glob
    input := joinAbs pkg.src e.input
    output := joinAbs pkg.dest e.output
    ignore := e.ignore
    followSymlinks := e.followSymlinks }

/-- First loop of `copyAssets` (lines 126-156): resolve, join and
containment-check each declared asset in order; the first violation aborts
with an error, so no later entry is resolved and no asset at all reaches
the copy loop. -/
def resolveAssets (probe : String → Except Unit (Bool × Bool)) (pkg : NgPackageModel) :
    List AssetPattern → Except String (List ResolvedAsset)
  | [] => .ok []
  | a :: rest =>
    let r := joinAsset pkg (resolveEntry probe pkg.src a)
    if isAncestorPath r.input pkg.src then .error assetReadError
    else if isAncestorPath r.output pkg.dest then .error assetWriteError
    else
      match resolveAssets probe pkg rest with
      | .error e => .error e
      | .ok rs => .ok (r :: rs)

/-- The fixed ignore patterns added to every glob call (line 115). -/
def globsForceIgnored (pkg : NgPackageModel) : List String :=
  [".gitkeep", "**/.DS_Store", "**/Thumbs.db", renderAbs pkg.dest ++ "/**"]

/-- Options handed to the glob collaborator for one asset (lines 159-165). -/
structure GlobOptions where
  cwd : List String
  ignore : List String
  dot : Bool
  onlyFiles : Bool
  followSymbolicLinks : Option Bool
deriving Repr, DecidableEq

/-- One file-copy operation: absolute source and destination paths. -/
structure CopyOp where
  srcFile : List String
  destFile : List String
deriving Repr, DecidableEq

/-- Copy-loop body for one resolved asset (lines 158-177): the glob
collaborator returns the matched relative file paths; each is copied from
the asset input to the asset output under the same relative path. The
graph-node bookkeeping of lines 169-175 affects only the build graph, not
which files are copied, and is not modelled. -/
def copyOpsFor (globFn : String → GlobOptions → List String) (pkg : NgPackageModel)
    (a : ResolvedAsset) : List CopyOp :=
  (globFn a.glob
      { cwd := a.input
        ignore := a.ignore.getD [] ++ globsForceIgnored pkg
        dot := true
        onlyFiles := true
        followSymbolicLinks := a.followSymlinks }).map
    (fun f => { srcFile := joinAbs a.input f, destFile := joinAbs a.output f })

/-- Function `copyAssets` (lines 108-179): resolve every declared asset plus the
defaults (first loop), then perform the copies (second loop). Returns the
copies performed and the error, if any; a resolution error yields an empty
copy list because the copy loop never starts. -/
def copyAssets (probe : String → Except Unit (Bool × Bool))
    (globFn : String → GlobOptions → List String) (pkg : NgPackageModel)
    (entryPointDirs : List String) : List CopyOp × Option String :=
  match resolveAssets probe pkg (pkg.assets ++ defaultAssets entryPointDirs) with
  | .error e => ([], some e)
  | .ok rs => ((rs.map (copyOpsFor globFn pkg)).flatten, none)

/-! ## Export map generation (part_000 lines 324-379) -/

/-- A conditional export object is an ordered map from condition name to
target; the export map is an ordered map from subpath to it. -/
abbrev ExportMap := List (String × StrMap)

/-- Lookup of one condition under one subpath. -/
def expGet (ex : ExportMap) (sp c : String) : Option String :=
  (alGet ex sp).bind (fun m => alGet m c)

/-- Assignment of one condition under one subpath. -/
def expSet (ex : ExportMap) (sp c v : String) : ExportMap :=
  alSet ex sp (alSet ((alGet ex sp).getD []) c v)

/-- Warning text for a conflicting export condition (lines 351-354). -/
def conflictWarning (subpath conditionName : String) : String :=
  "Found a conflicting export condition for \"" ++ subpath ++ "\". The \"" ++
    conditionName ++ "\" condition would be overridden by ng-packagr. Please unset it."

/-- Loop body of `insertMappingOrError` over `Object.keys(mapping)` in
order (lines 349-360): a condition that is already present triggers the
conflict warning, and the generated value is then assigned regardless. -/
def insertConditions (sp : String) :
    List (String × String) → ExportMap × List String → ExportMap × List String
  | [], st => st
  | (c, v) :: rest, (ex, ws) =>
    let ws2 := if (expGet ex sp c).isSome then ws ++ [conflictWarning sp c] else ws
    insertConditions sp rest (expSet ex sp c v, ws2)

/-- Function `insertMappingOrError` (lines 342-361): materialize the subpath slot if
missing, then insert every condition of the mapping in order, warning on
each condition that was already set. -/
def insertMappingOrError (ex : ExportMap) (ws : List String) (sp : String)
    (mapping : List (String × String)) : ExportMap × List String :=
  let ex1 := if (alGet ex sp).isSome then ex else alSet ex sp []
  insertConditions sp mapping (ex1, ws)

/-- Slice of an entry point consumed by export generation and by the
secondary-entry-point stub: module id, destination paths of the bundles,
the per-entry output directory and the secondary flag. -/
structure EntryPointModel where
  moduleId : String
  destinationPath : String
  fesm2022 : String
  declarationsBundled : String
  directory : String
  isSecondaryEntryPoint : Bool
deriving Repr, DecidableEq

/-- The `relativeUnixFromDestPath` closure inside `generatePackageExports` (lines
363-364): "./" plus the slash-normalized relative path from the primary
destination to the file. -/
def relativeUnixFromDest (destinationPath filePath : String) : String :=
  "./" ++ ensureUnixPath
    (String.intercalate "/" (relativeSegs (splitPath destinationPath) (splitPath filePath)))

/-- Function `generatePackageExports` (lines 336-379): start from the export map
declared in the primary manifest, assert the package.json self-reference,
then for every entry point insert the types/default conditions at its
subpath ("." for the primary, "./dir" for a secondary). Returns the map
and the warnings emitted. -/
def generatePackageExports (destinationPath : String) (declaredExports : ExportMap)
    (entryPoints : List EntryPointModel) : ExportMap × List String :=
  let st0 := insertMappingOrError declaredExports [] "./package.json"
    [("default", "./package.json")]
  entryPoints.foldl
    (fun st ep =>
      let subpath := if ep.isSecondaryEntryPoint then "./" ++ ep.directory else "."
      insertMappingOrError st.1 st.2 subpath
        [("types", relativeUnixFromDest destinationPath ep.declarationsBundled),
         ("default", relativeUnixFromDest destinationPath ep.fesm2022)])
    st0

/-! ## Manifest assembly (part_000 lines 181-322, 381-386) -/

/-- The package manifest fields manipulated by `writePackageJson`;
`extraProps` records the names of the remaining top-level properties
present (consumed by the field-stripping loop), `ngPackagePresent` the
internal ngPackage field. -/
structure PackageJson where
  name : Option String := none
  version : Option String := none
  dependencies : Option StrMap := none
  peerDependencies : Option StrMap := none
  scripts : Option StrMap := none
  exports : Option ExportMap := none
  sideEffects : Option Bool := none
  moduleField : Option String := none
  typings : Option String := none
  ngPackagePresent : Bool := false
  extraProps : List String := []
deriving Repr, DecidableEq

/-- The `additionalProperties` record built by the transform (lines
61-67). -/
structure AdditionalProps where
  moduleField : String
  typings : String
  exports : ExportMap
  sideEffects : Bool
deriving Repr, DecidableEq

/-- Filesystem operations performed by the manifest-writing code. -/
inductive FsOp where
  | writeJson (path : String) (content : PackageJson)
  | rmdirRecursive (path : String)
deriving Repr, DecidableEq

/-- Node `path.join` of a destination directory with a file name. -/
def joinFile (dir file : String) : String := dir ++ "/" ++ file

/-- Function `generateWatchVersion` (lines 384-386), with `Date.now()` passed in as
the current timestamp in milliseconds. -/
def generateWatchVersion (now : Nat) : String :=
  "0.0.0-watch+" ++ toString now

/-- The spread merge `packageJson = { ...entryPoint.packageJson,
...additionalProperties }` (line 207): the four computed properties always
overwrite the declared ones. -/
def mergeAdditional (pj : PackageJson) (ap : AdditionalProps) : PackageJson :=
  { pj with
    moduleField := some ap.moduleField
    typings := some ap.typings
    exports := some ap.exports
    sideEffects := some ap.sideEffects }

/-- Optional-chained dependency lookup `map?.[k]`. -/
def depOf (m : Option StrMap) (k : String) : Option String :=
  m.bind (fun d => alGet d k)

/-- Warning emitted when tslib is declared under peerDependencies (lines
230-234). -/
def tslibMigrationWarning : String :=
  "\x27tslib\x27 is no longer recommended to be used as a \x27peerDependencies\x27. Moving it to \x27dependencies\x27."

/-- The expression `angularPeerDependencies.tslib ||
angularDependencies.tslib` (line 224): the tslib version declared by the
Angular compiler package metadata, preferring its peerDependencies
entry. -/
def angularTslibVersion (angularPeerDeps angularDeps : StrMap) : Option String :=
  if jsTruthy (alGet angularPeerDeps "tslib") then alGet angularPeerDeps "tslib"
  else alGet angularDeps "tslib"

/-- Step 2 of `writePackageJson` (lines 219-238): when neither
dependencies nor peerDependencies declares tslib (truthily), inject the
version found in the Angular compiler package metadata, if declared there;
when tslib is declared as a peer dependency, move it into dependencies and
warn. -/
def applyTslib (angularPeerDeps angularDeps : StrMap) (pj : PackageJson) :
    PackageJson × List String :=
  if !(jsTruthy (depOf pj.peerDependencies "tslib")) &&
      !(jsTruthy (depOf pj.dependencies "tslib")) then
    let tsLibVersion := angularTslibVersion angularPeerDeps angularDeps
    if jsTruthy tsLibVersion then
      ({ pj with dependencies := some (alSet (pj.dependencies.getD [])
          "tslib" (tsLibVersion.getD "")) }, [])
    else (pj, [])
  else if jsTruthy (depOf pj.peerDependencies "tslib") then
    ({ pj with
        dependencies := some (alSet (pj.dependencies.getD []) "tslib"
          ((depOf pj.peerDependencies "tslib").getD ""))
        peerDependencies := some (alDelete (pj.peerDependencies.getD []) "tslib") },
      [tslibMigrationWarning])
  else (pj, [])

/-- Warning text of `checkNonPeerDependencies` (lines 313-318). -/
def depNotRecommendedWarning (property dep : String) : String :=
  "Distributing npm packages with \x27" ++ property ++
    "\x27 is not recommended. Please consider adding " ++ dep ++
    " to \x27peerDependencies\x27 or remove it from \x27" ++ property ++ "\x27."

/-- Error text of `checkNonPeerDependencies` (line 319). -/
def depNotAllowedError (dep : String) : String :=
  "Dependency " ++ dep ++
    " must be explicitly allowed using the \"allowedNonPeerDependencies\" option."

/-- Key loop of `checkNonPeerDependencies` (lines 309-321): each
dependency name must pass at least one allow-list test; the first failure
warns and throws. The allow-list regular expressions are modelled by their
match predicates on dependency names. Returns the warnings emitted and the
thrown error, if any. -/
def checkDepKeys (property : String) (allowed : List (String → Bool)) :
    List String → List String × Option String
  | [] => ([], none)
  | dep :: rest =>
    if allowed.any (fun test => test dep) then checkDepKeys property allowed rest
    else ([depNotRecommendedWarning property dep], some (depNotAllowedError dep))

/-- Function `checkNonPeerDependencies` (lines 299-322): an absent property
short-circuits to success. -/
def checkNonPeerDependencies (depMap : Option StrMap) (property : String)
    (allowed : List (String → Bool)) : List String × Option String :=
  match depMap with
  | none => ([], none)
  | some m => checkDepKeys property allowed (m.map Prod.fst)

/-- Info text for the scripts-section removal (line 253). -/
def scriptsRemovedInfo : String :=
  "Removing scripts section in package.json as it\x27s considered a potential security vulnerability."

/-- Warning text for retained lifecycle scripts (lines 256-260). -/
def keepScriptsWarning : String :=
  "You enabled keepLifecycleScripts explicitly. The scripts section in package.json will be published to npm."

/-- Step 4 of `writePackageJson` (lines 251-262): drop the scripts section
unless the package explicitly retains lifecycle scripts. Returns the
manifest, the infos and the warnings. -/
def applyScriptsHygiene (keepLifecycleScripts : Bool) (pj : PackageJson) :
    PackageJson × List String × List String :=
  match pj.scripts with
  | none => (pj, [], [])
  | some _ =>
    if keepLifecycleScripts = true then (pj, [], [keepScriptsWarning])
    else ({ pj with scripts := none }, [scriptsRemovedInfo], [])

/-- The injected prepublishOnly guard script (lines 266-271). -/
def prepublishOnlyGuard : String :=
  "node --eval \"console.error(\x27ERROR: Trying to publish a package that has been compiled in full compilation mode. This is not allowed.\\nPlease delete and rebuild the package with partial compilation mode, before attempting to publish.\\n\x27)\" && exit 1"

/-- Step 5 of `writePackageJson` (lines 264-272): in any compilation mode
other than "partial" (including an undefined mode), materialize the
scripts object and overwrite its prepublishOnly entry with the guard. -/
def applyPublishGuard (compilationMode : Option String) (pj : PackageJson) : PackageJson :=
  if compilationMode ≠ some "partial" then
    { pj with scripts := some (alSet (pj.scripts.getD []) "prepublishOnly" prepublishOnlyGuard) }
  else pj

/-- The fixed list of stripped manifest properties (lines 278-286). -/
def packageJsonPropertiesToDelete : List String :=
  ["stylelint", "prettier", "browserslist", "devDependencies", "jest", "workspaces", "husky"]

/-- Loop body of the property-stripping loop (lines 288-293): a present
property is deleted and the removal logged. -/
def stripStep (st : PackageJson × List String) (prop : String) : PackageJson × List String :=
  if prop ∈ st.1.extraProps then
    ({ st.1 with extraProps := st.1.extraProps.filter (fun p => p ≠ prop) },
      st.2 ++ ["Removing " ++ prop ++ " section in package.json."])
  else st

/-- Step 6 of `writePackageJson` (lines 274-293): drop the internal
ngPackage field, then each tooling-specific property present, logging one
info per removal. -/
def stripFields (pj : PackageJson) : PackageJson × List String :=
  packageJsonPropertiesToDelete.foldl stripStep ({ pj with ngPackagePresent := false }, [])

/-- Outcome of `writePackageJson`: the filesystem operations in order, the
warnings, the infos, and the propagated error, if any. -/
structure WriteResult where
  ops : List FsOp
  warnings : List String
  infos : List String
  err : Option String
deriving Repr, DecidableEq

/-- Steps 1-2 of `writePackageJson` (lines 207-217): the spread merge of
the computed properties, then the watch-mode version override. -/
def mergedWatch (declared : PackageJson) (ap : AdditionalProps) (isWatchMode : Bool)
    (now : Nat) : PackageJson :=
  if isWatchMode then
    { mergeAdditional declared ap with version := some (generateWatchVersion now) }
  else mergeAdditional declared ap

/-- Steps 1-3 of `writePackageJson` (lines 207-238): merge and watch
version, then the tslib rule. The result pairs the manifest in progress
with the warnings emitted so far. -/
def assembledBeforeCheck (declared : PackageJson) (ap : AdditionalProps)
    (isWatchMode : Bool) (now : Nat) (angularPeerDeps angularDeps : StrMap) :
    PackageJson × List String :=
  applyTslib angularPeerDeps angularDeps (mergedWatch declared ap isWatchMode now)

/-- Steps 4-7 of the success path of `writePackageJson` (lines 250-296):
scripts hygiene, the full-mode publish guard, field stripping, and the
name override. Returns the final manifest, the infos and the warnings. -/
def finalManifest (pj2 : PackageJson) (compilationMode : Option String)
    (keepLifecycleScripts : Bool) (moduleId : String) :
    PackageJson × List String × List String :=
  let hyg := applyScriptsHygiene keepLifecycleScripts pj2
  let strip := stripFields (applyPublishGuard compilationMode hyg.1)
  ({ strip.1 with name := some moduleId }, hyg.2.1 ++ strip.2, hyg.2.2)

/-- The branch of `writePackageJson` on the outcome of the dependency gate
(lines 243-248 vs 250-296): a gate error performs exactly one filesystem
operation — the recursive removal of the entry point destination directory
— and propagates the error, writing no manifest; otherwise the finished
manifest is written into the destination directory. -/
def writeOutcome (destinationPath moduleId : String) (tl : PackageJson × List String)
    (chk : List String × Option String) (compilationMode : Option String)
    (keepLifecycleScripts : Bool) : WriteResult :=
  match chk.2 with
  | some e =>
    { ops := [.rmdirRecursive destinationPath]
      warnings := tl.2 ++ chk.1
      infos := []
      err := some e }
  | none =>
    let fin := finalManifest tl.1 compilationMode keepLifecycleScripts moduleId
    { ops := [.writeJson (joinFile destinationPath "package.json") fin.1]
      warnings := tl.2 ++ chk.1 ++ fin.2.2
      infos := fin.2.1
      err := none }

/-- Function `writePackageJson` (lines 196-297), in source order: merge the
computed properties over the declared manifest fragment; in watch mode
override the version with the watch pseudo-version; apply the tslib rule;
run the non-peer-dependency gate over the resulting dependencies, and on
its failure recursively delete the entry point destination directory and
propagate the error without writing anything; otherwise apply scripts
hygiene, the full-mode publish guard and field stripping, set the name to
the module id, and write the manifest into the destination directory. -/
def writePackageJson (destinationPath moduleId : String) (declared : PackageJson)
    (ap : AdditionalProps) (isWatchMode : Bool) (now : Nat)
    (compilationMode : Option String) (angularPeerDeps angularDeps : StrMap)
    (allowed : List (String → Bool)) (keepLifecycleScripts : Bool) : WriteResult :=
  writeOutcome destinationPath moduleId
    (assembledBeforeCheck declared ap isWatchMode now angularPeerDeps angularDeps)
    (checkNonPeerDependencies
      (assembledBeforeCheck declared ap isWatchMode now angularPeerDeps angularDeps).1.dependencies
      "dependencies" allowed)
    compilationMode keepLifecycleScripts

/-- The manifest written by a run, if any. -/
def writtenManifest (r : WriteResult) : Option PackageJson :=
  r.ops.findSome? (fun op => match op with
    | .writeJson _ m => some m
    | _ => none)

/-- Lookup of a script entry in a manifest. -/
def getScript (pj : PackageJson) (k : String) : Option String :=
  pj.scripts.bind (fun s => alGet s k)

/-- The secondary-entry-point branch of `writePackageTransform` (part_000
lines 77-101): in watch mode, when the primary manifest file exists on
disk, its version is overwritten with a fresh watch pseudo-version and it
is written back; then, watch mode or not, a minimal manifest containing
only the module field is written for the secondary entry point. -/
def writePackageTransformSecondary (watch : Bool) (primaryDestPath : String)
    (primaryManifestOnDisk : Option PackageJson) (now : Nat)
    (secondaryDestPath : String) (fesmRelPath : String) : List FsOp :=
  let bumpOps :=
    if watch then
      match primaryManifestOnDisk with
      | some pjson => [FsOp.writeJson (joinFile primaryDestPath "package.json")
          { pjson with version := some (generateWatchVersion now) }]
      | none => []
    else []
  bumpOps ++ [FsOp.writeJson (joinFile secondaryDestPath "package.json")
    { moduleField := some fesmRelPath }]

/-! ## Worker pool configuration (postbuild.js, second document) -/

/-- The Piscina constructor options manipulated by `WorkerPool`; `none`
marks an absent key. -/
structure PoolOptions where
  minThreads : Option Nat := none
  idleTimeout : Option Nat := none
  atomics : Option String := none
  recordTiming : Option Bool := none
  env : Option StrMap := none
deriving Repr, DecidableEq

/-- The `WorkerPool` constructor: defaults (one resident thread, 1000 ms
idle timeout, timing off, atomics "sync" unless the webcontainer runtime
indicator is truthy, in which case "disabled") merged under the
caller-supplied options by object spread; then the compiled-code cache
directory reported by the host runtime — suppressed entirely when the
RUNFILES variable is truthy — is pushed into the worker env as
NODE_COMPILE_CACHE, spreading the current process env when no env object
was supplied. -/
def workerPoolOptions (options : PoolOptions) (webcontainerVersion runfilesVar : Option String)
    (compileCacheDir : Option String) (processEnv : StrMap) : PoolOptions :=
  let piscina : PoolOptions :=
    { minThreads := some (options.minThreads.getD 1)
      idleTimeout := some (options.idleTimeout.getD 1000)
      atomics := some (options.atomics.getD
        (if jsTruthy webcontainerVersion then "disabled" else "sync"))
      recordTiming := some (options.recordTiming.getD false)
      env := options.env }
  let compileCacheDirectory := if jsTruthy runfilesVar then none else compileCacheDir
  if jsTruthy compileCacheDirectory then
    match piscina.env with
    | some envObj =>
      { piscina with env := some (alSet envObj "NODE_COMPILE_CACHE"
          (compileCacheDirectory.getD "")) }
    | none =>
      { piscina with env := some (alSet processEnv "NODE_COMPILE_CACHE"
          (compileCacheDirectory.getD "")) }
  else piscina

/-! ## Decimal rendering of timestamps

`generateWatchVersion` embeds `Date.now()` via `toString`, i.e.
`Nat.repr`. `decDigits` is a structurally transparent description of the
decimal digit characters that `Nat.toDigitsCore` produces, used to reason
about the ordering of rendered timestamps. -/

/-- Decimal digit characters of a natural number, most significant
first. -/
def decDigits (n : Nat) : List Char :=
  if n < 10 then [Nat.digitChar (n % 10)]
  else decDigits (n / 10) ++ [Nat.digitChar (n % 10)]
decreasing_by exact Nat.div_lt_self (by omega) (by omega)

/-! ## Lemmas: the object model -/

theorem alGet_alSet_self {α : Type} (m : List (String × α)) (k : String) (v : α) :
    alGet (alSet m k v) k = some v := by
  induction m with
  | nil => simp [alSet, alGet]
  | cons kv rest ih =>
    obtain ⟨k0, v0⟩ := kv
    by_cases h : k0 = k
    · subst h
      simp [alSet, alGet]
    · simp [alSet, alGet, h, ih]

theorem alGet_alSet_ne {α : Type} (m : List (String × α)) (k k2 : String) (v : α)
    (h : k2 ≠ k) : alGet (alSet m k v) k2 = alGet m k2 := by
  induction m with
  | nil =>
    have h2 : ¬ k = k2 := fun hh => h hh.symm
    simp [alSet, alGet, h2]
  | cons kv rest ih =>
    obtain ⟨k0, v0⟩ := kv
    by_cases h0 : k0 = k
    · subst h0
      have h2 : ¬ k0 = k2 := fun hh => h hh.symm
      simp [alSet, alGet, h2]
    · simp only [alSet, if_neg h0]
      by_cases h2 : k0 = k2
      · simp [alGet, h2]
      · simp [alGet, h2, ih]

theorem alGet_alDelete_self {α : Type} (m : List (String × α)) (k : String) :
    alGet (alDelete m k) k = none := by
  induction m with
  | nil => simp [alDelete, alGet]
  | cons kv rest ih =>
    obtain ⟨k0, v0⟩ := kv
    by_cases h : k0 = k
    · subst h
      simpa [alDelete, alGet] using ih
    · simpa [alDelete, alGet, h] using ih

theorem mem_keys_alSet {α : Type} (m : List (String × α)) (k k2 : String) (v : α)
    (h : k2 ∈ m.map Prod.fst) : k2 ∈ (alSet m k v).map Prod.fst := by
  induction m with
  | nil => cases h
  | cons kv rest ih =>
    obtain ⟨k0, v0⟩ := kv
    by_cases h0 : k0 = k
    · subst h0
      simpa [alSet] using h
    · simp only [List.map_cons, List.mem_cons] at h
      rcases h with h | h
    
      · simp [alSet, h0, h]
      · simp only [alSet, if_neg h0, List.map_cons, List.mem_cons]
        exact Or.inr (ih h)

theorem mem_keys_of_alGet_some {α : Type} (m : List (String × α)) (k : String) (v : α)
    (h : alGet m k = some v) : k ∈ m.map Prod.fst := by
  induction m with
  | nil => simp [alGet] at h
  | cons kv rest ih =>
    obtain ⟨k0, v0⟩ := kv
    by_cases h0 : k0 = k
    · simp [h0]
    · simp only [alGet, if_neg h0] at h
      simp [ih h]

/-! ## Lemmas: export map insertion -/

theorem expGet_expSet_self (ex : ExportMap) (sp c v : String) :
    expGet (expSet ex sp c v) sp c = some v := by
  unfold expGet expSet
  rw [alGet_alSet_self]
  simp [alGet_alSet_self]

theorem expGet_expSet_ne (ex : ExportMap) (sp c c2 v : String) (h : c2 ≠ c) :
    expGet (expSet ex sp c v) sp c2 = expGet ex sp c2 := by
  unfold expGet expSet
  rw [alGet_alSet_self]
  cases hsp : alGet ex sp with
  | none =>
    have h2 : ¬ c = c2 := fun hh => h hh.symm
    simp [alGet, alSet, h2]
  | some m => simp [alGet_alSet_ne _ _ _ _ h]

theorem alGet_isSome_of_expGet_isSome (ex : ExportMap) (sp c : String)
    (h : (expGet ex sp c).isSome) : (alGet ex sp).isSome := by
  unfold expGet at h
  cases hsp : alGet ex sp with
  | none => rw [hsp] at h; simp at h
  | some m => simp

theorem insertConditions_expGet_not_mem (sp c : String) (mapping : List (String × String))
    (st : ExportMap × List String) (h : c ∉ mapping.map Prod.fst) :
    expGet (insertConditions sp mapping st).1 sp c = expGet st.1 sp c := by
  induction mapping generalizing st with
  | nil => rfl
  | cons cv rest ih =>
    obtain ⟨c0, v0⟩ := cv
    obtain ⟨ex, ws⟩ := st
    simp only [List.map_cons, List.mem_cons] at h
    push_neg at h
    unfold insertConditions
    rw [ih _ h.2]
    exact expGet_expSet_ne ex sp c0 c v0 h.1

theorem insertConditions_warnings_mono (sp : String) (mapping : List (String × String))
    (st : ExportMap × List String) (w : String) (h : w ∈ st.2) :
    w ∈ (insertConditions sp mapping st).2 := by
  induction mapping generalizing st with
  | nil => exact h
  | cons cv rest ih =>
    obtain ⟨c0, v0⟩ := cv
    obtain ⟨ex, ws⟩ := st
    unfold insertConditions
    apply ih
    split <;> simp [h]

theorem insertConditions_conflict (sp c : String) (mapping : List (String × String))
    (hnodup : (mapping.map Prod.fst).Nodup) (hmem : c ∈ mapping.map Prod.fst) :
    ∀ (ex : ExportMap) (ws : List String), (expGet ex sp c).isSome →
      conflictWarning sp c ∈ (insertConditions sp mapping (ex, ws)).2 ∧
        expGet (insertConditions sp mapping (ex, ws)).1 sp c = alGet mapping c := by
  induction mapping with
  | nil => cases hmem
  | cons cv rest ih =>
    obtain ⟨c0, v0⟩ := cv
    intro ex ws hset
    simp only [List.map_cons, List.nodup_cons] at hnodup
    by_cases hc : c0 = c
    · subst hc
      constructor
      · unfold insertConditions
        rw [if_pos hset]
        apply insertConditions_warnings_mono
        simp
      · unfold insertConditions
        rw [insertConditions_expGet_not_mem _ _ _ _ hnodup.1]
        simp [expGet_expSet_self, alGet]
    · have hmem' : c ∈ rest.map Prod.fst := by
        rw [List.map_cons] at hmem
        rcases List.mem_cons.mp hmem with h | h
        · exact absurd h.symm hc
        · exact h
      have hset' : (expGet (expSet ex sp c0 v0) sp c).isSome := by
        rw [expGet_expSet_ne _ _ _ _ _ (fun hh => hc hh.symm)]
        exact hset
      unfold insertConditions
      have h := ih hnodup.2 hmem' (expSet ex sp c0 v0)
        (if (expGet ex sp c0).isSome then ws ++ [conflictWarning sp c0] else ws) hset'
      refine ⟨h.1, ?_⟩
      rw [h.2]
      simp [alGet, hc]

/-- C1 (amended): when export-map generation inserts a mapping under a
subpath and one of the mapping's condition keys is already present there
(user-declared or set by an earlier entry point), `insertMappingOrError`
emits a warning naming the conflicting subpath and condition, and then
assigns the generated value anyway: the merge is last-write-wins, so the
value the mapping supplies is what remains. -/
theorem c1_conflict_warns_and_overwrites (ex : ExportMap) (ws : List String)
    (sp : String) (mapping : List (String × String)) (c v : String)
    (hnodup : (mapping.map Prod.fst).Nodup)
    (hmap : alGet mapping c = some v)
    (hset : (expGet ex sp c).isSome) :
    conflictWarning sp c ∈ (insertMappingOrError ex ws sp mapping).2 ∧
      expGet (insertMappingOrError ex ws sp mapping).1 sp c = some v := by
  have hsp : (alGet ex sp).isSome := alGet_isSome_of_expGet_isSome ex sp c hset
  unfold insertMappingOrError
  rw [if_pos hsp]
  have h := insertConditions_conflict sp c mapping hnodup
    (mem_keys_of_alGet_some _ _ _ hmap) ex ws hset
  exact ⟨h.1, by rw [h.2, hmap]⟩

/-- C1 (witness): the amended theorem applied at a concrete conflicting
insertion. -/
theorem c1_witness :
    ([("types", "./t.d.ts"), ("default", "./f.mjs")].map
        (Prod.fst (α := String) (β := String))).Nodup ∧
    alGet [("types", "./t.d.ts"), ("default", "./f.mjs")] "default" = some "./f.mjs" ∧
    (expGet [(".", [("default", "./custom.js")])] "." "default").isSome = true ∧
    (conflictWarning "." "default" ∈
        (insertMappingOrError [(".", [("default", "./custom.js")])] [] "."
          [("types", "./t.d.ts"), ("default", "./f.mjs")]).2 ∧
      expGet (insertMappingOrError [(".", [("default", "./custom.js")])] [] "."
          [("types", "./t.d.ts"), ("default", "./f.mjs")]).1 "." "default" =
        some "./f.mjs") :=
  ⟨by decide, by decide, by decide,
    c1_conflict_warns_and_overwrites _ _ _ _ _ _ (by decide) (by decide) (by decide)⟩

/-- C1 (counterexample): with a declared export map presetting the
"default" condition of the "." subpath to "./custom.js" and one primary
entry point, export-map generation emits the conflict warning yet the
resulting map holds the generated bundle path: the previously-set value
does not remain, refuting the claimed first-write-wins merge. -/
theorem c1_counterexample :
    let r := generatePackageExports "/pkg/dist" [(".", [("default", "./custom.js")])]
      [{ moduleId := "lib"
         destinationPath := "/pkg/dist"
         fesm2022 := "/pkg/dist/fesm2022/lib.mjs"
         declarationsBundled := "/pkg/dist/index.d.ts"
         directory := ""
         isSecondaryEntryPoint := false }]
    conflictWarning "." "default" ∈ r.2 ∧
      expGet r.1 "." "default" ≠ some "./custom.js" := by
  decide

/-! ## Lemmas: asset containment -/

theorem isAncestorPath_of_not_within (root p : List String) (h : ¬ isWithin root p) :
    isAncestorPath p root = true := by
  unfold isWithin at h
  show segsStartWithDotDot
    (List.replicate (stripCommon root p).1.length ".." ++ (stripCommon root p).2) = true
  cases hl : (stripCommon root p).1 with
  | nil => exact absurd hl h
  | cons x xs =>
    simp only [List.length_cons, List.replicate_succ, List.cons_append]
    show strStartsWith ".." ".." = true
    decide

theorem resolveAssets_error_of_violation (probe : String → Except Unit (Bool × Bool))
    (pkg : NgPackageModel) (l : List AssetPattern) (a : AssetPattern) (ha : a ∈ l)
    (hv : ¬ isWithin pkg.src (joinAsset pkg (resolveEntry probe pkg.src a)).input ∨
      ¬ isWithin pkg.dest (joinAsset pkg (resolveEntry probe pkg.src a)).output) :
    resolveAssets probe pkg l = .error assetReadError ∨
      resolveAssets probe pkg l = .error assetWriteError := by
  induction l with
  | nil => cases ha
  | cons x rest ih =>
    by_cases hin : isAncestorPath (joinAsset pkg (resolveEntry probe pkg.src x)).input pkg.src
    · left
      unfold resolveAssets
      rw [if_pos hin]
    · by_cases hout :
          isAncestorPath (joinAsset pkg (resolveEntry probe pkg.src x)).output pkg.dest
      · right
        unfold resolveAssets
        rw [if_neg hin, if_pos hout]
      · have hax : a ≠ x := by
          rintro rfl
          rcases hv with h | h
          · exact hin (isAncestorPath_of_not_within _ _ h)
          · exact hout (isAncestorPath_of_not_within _ _ h)
        have ha' : a ∈ rest := by
          rcases List.mem_cons.mp ha with h | h
          · exact absurd h hax
          · exact h
        unfold resolveAssets
        rw [if_neg hin, if_neg hout]
        rcases ih ha' with h | h
        · left
          rw [h]
        · right
          rw [h]

/-- C2: if any declared or default asset resolves to an entry whose input
lies outside the package source root, or whose output lies outside the
package destination root, `copyAssets` fails with the corresponding
containment error message and performs zero copy operations — no file of
any asset entry, including entries resolved before the violating one, is
copied, because the entire resolution-and-validation loop precedes the
copy loop. -/
theorem c2_containment_violation_copies_nothing
    (probe : String → Except Unit (Bool × Bool))
    (globFn : String → GlobOptions → List String) (pkg : NgPackageModel)
    (entryPointDirs : List String) (a : AssetPattern)
    (ha : a ∈ pkg.assets ++ defaultAssets entryPointDirs)
    (hv : ¬ isWithin pkg.src (joinAsset pkg (resolveEntry probe pkg.src a)).input ∨
      ¬ isWithin pkg.dest (joinAsset pkg (resolveEntry probe pkg.src a)).output) :
    (copyAssets probe globFn pkg entryPointDirs).1 = [] ∧
      ((copyAssets probe globFn pkg entryPointDirs).2 = some assetReadError ∨
        (copyAssets probe globFn pkg entryPointDirs).2 = some assetWriteError) := by
  unfold copyAssets
  rcases resolveAssets_error_of_violation probe pkg _ a ha hv with h | h <;>
    rw [h] <;> simp

/-- C2 (witness): a single declared asset whose input escapes the source
root makes `copyAssets` fail with the read-containment error and produce
no copies, even though the glob collaborator would have matched a file. -/
theorem c2_witness :
    (copyAssets (fun _ => .error ()) (fun _ _ => ["f.txt"])
        { src := ["pkg", "src"]
          dest := ["pkg", "dist"]
          assets := [.entry { glob := "*", input := "../evil", output := "/" }] }
        [""]).1 = [] ∧
      ((copyAssets (fun _ => .error ()) (fun _ _ => ["f.txt"])
          { src := ["pkg", "src"]
            dest := ["pkg", "dist"]
            assets := [.entry { glob := "*", input := "../evil", output := "/" }] }
          [""]).2 = some assetReadError ∨
        (copyAssets (fun _ => .error ()) (fun _ _ => ["f.txt"])
            { src := ["pkg", "src"]
              dest := ["pkg", "dist"]
              assets := [.entry { glob := "*", input := "../evil", output := "/" }] }
            [""]).2 = some assetWriteError) :=
  c2_containment_violation_copies_nothing _ _ _ _
    (.entry { glob := "*", input := "../evil", output := "/" }) (by decide) (by decide)

/-- C5: resolution of a bare string asset declaration probes the path
under the source root: a directory yields the recursive glob rooted at the
declared path; a file yields its own basename rooted at its containing
directory; a probe reporting neither, or a failing probe (swallowed, never
escalated — resolution is total), yields the string itself as a glob
rooted at "/", i.e. the source root after joining. -/
theorem c5_bare_string_resolution (probe : String → Except Unit (Bool × Bool))
    (src : List String) (s : String) :
    (∀ isFile, probe (renderAbs (joinAbs src s)) = .ok (true, isFile) →
      resolveEntry probe src (.str s) = { glob := "**/*", input := s, output := s }) ∧
    (probe (renderAbs (joinAbs src s)) = .ok (false, true) →
      resolveEntry probe src (.str s) =
        { glob := basename s, input := dirname s, output := dirname s }) ∧
    ((probe (renderAbs (joinAbs src s)) = .ok (false, false) ∨
        (∃ u, probe (renderAbs (joinAbs src s)) = .error u)) →
      resolveEntry probe src (.str s) = { glob := s, input := "/", output := "/" }) := by
  refine ⟨fun isFile h => ?_, fun h => ?_, fun h => ?_⟩
  · simp [resolveEntry, h]
  · simp [resolveEntry, h]
  · rcases h with h | ⟨u, h⟩ <;> simp [resolveEntry, h]

/-- C5 (witness): the file case applied at a concrete probe and path. -/
theorem c5_witness :
    resolveEntry (fun _ => .ok (false, true)) ["pkg", "src"] (.str "docs/a.md") =
      { glob := basename "docs/a.md"
        input := dirname "docs/a.md"
        output := dirname "docs/a.md" } :=
  (c5_bare_string_resolution (fun _ => .ok (false, true)) ["pkg", "src"] "docs/a.md").2.1 rfl

/-- C4 (counterexample): in watch mode the manifest written for the
secondary entry point is the same minimal module-only stub as outside
watch mode — it carries no name, no version and no dependencies —
refuting the claim that watch mode writes a full package manifest for the
secondary entry point. -/
theorem c4_counterexample :
    let stub : PackageJson := { moduleField := some "./fesm2022/sub.mjs" }
    let writesAt := fun (watch : Bool) =>
      (writePackageTransformSecondary watch "/pkg/dist"
          (some { name := some "lib", version := some "1.0.0" }) 5
          "/pkg/dist/sub" "./fesm2022/sub.mjs").filterMap
        (fun op => match op with
          | FsOp.writeJson p m => if p = "/pkg/dist/sub/package.json" then some m else none
          | _ => none)
    writesAt true = [stub] ∧ writesAt false = [stub] ∧
      stub.name = none ∧ stub.version = none ∧ stub.dependencies = none := by
  decide

/-- C4 (amended): a secondary entry point always writes the minimal
module-only manifest stub at its own destination; in watch mode — and
only when the primary manifest file exists on disk — it additionally
rewrites the primary manifest first, with its version replaced by a fresh
watch pseudo-version; outside watch mode the stub write is the only
operation performed. -/
theorem c4_secondary_entry_point_writes (watch : Bool) (primaryDestPath : String)
    (primaryOnDisk : Option PackageJson) (now : Nat)
    (secondaryDestPath fesmRelPath : String) :
    (FsOp.writeJson (joinFile secondaryDestPath "package.json")
        { moduleField := some fesmRelPath } ∈
      writePackageTransformSecondary watch primaryDestPath primaryOnDisk now
        secondaryDestPath fesmRelPath) ∧
    (watch = false →
      writePackageTransformSecondary watch primaryDestPath primaryOnDisk now
          secondaryDestPath fesmRelPath =
        [FsOp.writeJson (joinFile secondaryDestPath "package.json")
          { moduleField := some fesmRelPath }]) ∧
    (∀ pjson, watch = true → primaryOnDisk = some pjson →
      writePackageTransformSecondary watch primaryDestPath primaryOnDisk now
          secondaryDestPath fesmRelPath =
        [FsOp.writeJson (joinFile primaryDestPath "package.json")
            { pjson with version := some (generateWatchVersion now) },
          FsOp.writeJson (joinFile secondaryDestPath "package.json")
            { moduleField := some fesmRelPath }]) := by
  refine ⟨?_, ?_, ?_⟩
  · cases watch <;> cases primaryOnDisk <;> simp [writePackageTransformSecondary]
  · rintro rfl
    cases primaryOnDisk <;> simp [writePackageTransformSecondary]
  · rintro pjson rfl rfl
    simp [writePackageTransformSecondary]

/-- C4 (witness): the amended theorem's watch branch at a concrete
input. -/
theorem c4_witness :
    writePackageTransformSecondary true "/pkg/dist" (some { name := some "lib" }) 7
        "/pkg/dist/sub" "./f.mjs" =
      [FsOp.writeJson (joinFile "/pkg/dist" "package.json")
          { name := some "lib", version := some (generateWatchVersion 7) },
        FsOp.writeJson (joinFile "/pkg/dist/sub" "package.json")
          { moduleField := some "./f.mjs" }] :=
  (c4_secondary_entry_point_writes true "/pkg/dist" (some { name := some "lib" }) 7
    "/pkg/dist/sub" "./f.mjs").2.2 { name := some "lib" } rfl rfl

/-! ## Lemmas: manifest assembly stages -/

theorem writePackageJson_def (destinationPath moduleId : String) (declared : PackageJson)
    (ap : AdditionalProps) (watch : Bool) (now : Nat) (mode : Option String)
    (aP aD : StrMap) (allowed : List (String → Bool)) (keep : Bool) :
    writePackageJson destinationPath moduleId declared ap watch now mode aP aD allowed keep =
      writeOutcome destinationPath moduleId
        (assembledBeforeCheck declared ap watch now aP aD)
        (checkNonPeerDependencies
          (assembledBeforeCheck declared ap watch now aP aD).1.dependencies
          "dependencies" allowed)
        mode keep := rfl

theorem applyTslib_scripts (aP aD : StrMap) (pj : PackageJson) :
    (applyTslib aP aD pj).1.scripts = pj.scripts := by
  simp only [applyTslib]
  split
  · split <;> rfl
  · split <;> rfl

theorem applyTslib_version (aP aD : StrMap) (pj : PackageJson) :
    (applyTslib aP aD pj).1.version = pj.version := by
  simp only [applyTslib]
  split
  · split <;> rfl
  · split <;> rfl

theorem stripStep_preserves (st : PackageJson × List String) (p : String) :
    (stripStep st p).1.scripts = st.1.scripts ∧
    (stripStep st p).1.dependencies = st.1.dependencies ∧
    (stripStep st p).1.peerDependencies = st.1.peerDependencies ∧
    (stripStep st p).1.version = st.1.version := by
  unfold stripStep
  split <;> exact ⟨rfl, rfl, rfl, rfl⟩

theorem stripFoldl_preserves (l : List String) (st : PackageJson × List String) :
    (l.foldl stripStep st).1.scripts = st.1.scripts ∧
    (l.foldl stripStep st).1.dependencies = st.1.dependencies ∧
    (l.foldl stripStep st).1.peerDependencies = st.1.peerDependencies ∧
    (l.foldl stripStep st).1.version = st.1.version := by
  induction l generalizing st with
  | nil => exact ⟨rfl, rfl, rfl, rfl⟩
  | cons p rest ih =>
    rw [List.foldl_cons]
    have h1 := stripStep_preserves st p
    have h2 := ih (stripStep st p)
    exact ⟨h2.1.trans h1.1, h2.2.1.trans h1.2.1, h2.2.2.1.trans h1.2.2.1,
      h2.2.2.2.trans h1.2.2.2⟩

theorem stripFields_preserves (pj : PackageJson) :
    (stripFields pj).1.scripts = pj.scripts ∧
    (stripFields pj).1.dependencies = pj.dependencies ∧
    (stripFields pj).1.peerDependencies = pj.peerDependencies ∧
    (stripFields pj).1.version = pj.version := by
  unfold stripFields
  exact stripFoldl_preserves _ _

theorem applyScriptsHygiene_preserves (keep : Bool) (pj : PackageJson) :
    (applyScriptsHygiene keep pj).1.dependencies = pj.dependencies ∧
    (applyScriptsHygiene keep pj).1.peerDependencies = pj.peerDependencies ∧
    (applyScriptsHygiene keep pj).1.version = pj.version := by
  unfold applyScriptsHygiene
  split
  · exact ⟨rfl, rfl, rfl⟩
  · split <;> exact ⟨rfl, rfl, rfl⟩

theorem applyPublishGuard_preserves (mode : Option String) (pj : PackageJson) :
    (applyPublishGuard mode pj).dependencies = pj.dependencies ∧
    (applyPublishGuard mode pj).peerDependencies = pj.peerDependencies ∧
    (applyPublishGuard mode pj).version = pj.version := by
  unfold applyPublishGuard
  split <;> exact ⟨rfl, rfl, rfl⟩

theorem finalManifest_eq (pj2 : PackageJson) (mode : Option String) (keep : Bool)
    (mid : String) :
    (finalManifest pj2 mode keep mid).1 =
      { (stripFields (applyPublishGuard mode (applyScriptsHygiene keep pj2).1)).1 with
        name := some mid } := rfl

theorem update_name_fields (x : PackageJson) (v : Option String) :
    ({ x with name := v } : PackageJson).dependencies = x.dependencies ∧
    ({ x with name := v } : PackageJson).peerDependencies = x.peerDependencies ∧
    ({ x with name := v } : PackageJson).version = x.version ∧
    ({ x with name := v } : PackageJson).scripts = x.scripts :=
  ⟨rfl, rfl, rfl, rfl⟩

theorem finalManifest_fields (pj2 : PackageJson) (mode : Option String) (keep : Bool)
    (mid : String) :
    (finalManifest pj2 mode keep mid).1.dependencies = pj2.dependencies ∧
    (finalManifest pj2 mode keep mid).1.peerDependencies = pj2.peerDependencies ∧
    (finalManifest pj2 mode keep mid).1.version = pj2.version := by
  have hs := stripFields_preserves (applyPublishGuard mode (applyScriptsHygiene keep pj2).1)
  have hg := applyPublishGuard_preserves mode (applyScriptsHygiene keep pj2).1
  have hh := applyScriptsHygiene_preserves keep pj2
  have hu := update_name_fields
    (stripFields (applyPublishGuard mode (applyScriptsHygiene keep pj2).1)).1 (some mid)
  rw [finalManifest_eq]
  exact ⟨((hu.1.trans hs.2.1).trans hg.1).trans hh.1,
    ((hu.2.1.trans hs.2.2.1).trans hg.2.1).trans hh.2.1,
    ((hu.2.2.1.trans hs.2.2.2).trans hg.2.2).trans hh.2.2⟩

theorem getScript_finalManifest (pj2 : PackageJson) (mode : Option String) (keep : Bool)
    (mid : String) :
    getScript (finalManifest pj2 mode keep mid).1 "prepublishOnly" =
      if mode = some "partial" then
        (if keep then getScript pj2 "prepublishOnly" else none)
      else some prepublishOnlyGuard := by
  have hstrip :=
    (stripFields_preserves (applyPublishGuard mode (applyScriptsHygiene keep pj2).1)).1
  have hu := (update_name_fields
    (stripFields (applyPublishGuard mode (applyScriptsHygiene keep pj2).1)).1 (some mid)).2.2.2
  unfold getScript
  rw [finalManifest_eq, hu, hstrip]
  by_cases hmode : mode = some "partial"
  · rw [if_pos hmode]
    unfold applyPublishGuard
    rw [if_neg (not_not_intro hmode)]
    unfold applyScriptsHygiene
    cases hscr : pj2.scripts with
    | none => cases keep <;> simp [getScript, hscr]
    | some s => cases keep <;> simp [getScript, hscr]
  · rw [if_neg hmode]
    unfold applyPublishGuard
    rw [if_pos hmode]
    simp [alGet_alSet_self]

theorem writtenManifest_writeOutcome (dp mid : String) (tl : PackageJson × List String)
    (chk : List String × Option String) (mode : Option String) (keep : Bool)
    (m : PackageJson)
    (hm : writtenManifest (writeOutcome dp mid tl chk mode keep) = some m) :
    chk.2 = none ∧ m = (finalManifest tl.1 mode keep mid).1 := by
  unfold writeOutcome at hm
  cases h : chk.2 with
  | some e =>
    rw [h] at hm
    simp [writtenManifest] at hm
  | none =>
    rw [h] at hm
    simp [writtenManifest] at hm
    exact ⟨rfl, hm.symm⟩

theorem writeOutcome_ok_warnings (dp mid : String) (tl : PackageJson × List String)
    (chk : List String × Option String) (mode : Option String) (keep : Bool)
    (h : chk.2 = none) :
    (writeOutcome dp mid tl chk mode keep).warnings =
      tl.2 ++ chk.1 ++ (finalManifest tl.1 mode keep mid).2.2 := by
  unfold writeOutcome
  rw [h]

theorem getScript_eq_of_scripts_eq (pj pj' : PackageJson) (k : String)
    (h : pj.scripts = pj'.scripts) : getScript pj k = getScript pj' k := by
  unfold getScript
  rw [h]

theorem assembled_scripts (declared : PackageJson) (ap : AdditionalProps) (watch : Bool)
    (now : Nat) (aP aD : StrMap) :
    (assembledBeforeCheck declared ap watch now aP aD).1.scripts = declared.scripts := by
  unfold assembledBeforeCheck
  rw [applyTslib_scripts]
  unfold mergedWatch
  cases watch <;> rfl

theorem assembled_version (declared : PackageJson) (ap : AdditionalProps) (watch : Bool)
    (now : Nat) (aP aD : StrMap) :
    (assembledBeforeCheck declared ap watch now aP aD).1.version =
      if watch then some (generateWatchVersion now) else declared.version := by
  unfold assembledBeforeCheck
  rw [applyTslib_version]
  unfold mergedWatch
  cases watch <;> rfl

theorem jsTruthy_eq_some (o : Option String) (h : jsTruthy o = true) :
    o = some (o.getD "") := by
  cases o with
  | none => simp [jsTruthy] at h
  | some s => rfl

theorem applyTslib_inject (aP aD : StrMap) (pj : PackageJson)
    (hp : jsTruthy (depOf pj.peerDependencies "tslib") = false)
    (hd : jsTruthy (depOf pj.dependencies "tslib") = false)
    (ht : jsTruthy (angularTslibVersion aP aD) = true) :
    applyTslib aP aD pj =
      ({ pj with dependencies := some (alSet (pj.dependencies.getD [])
          "tslib" ((angularTslibVersion aP aD).getD "")) }, []) := by
  simp [applyTslib, hp, hd, ht]

theorem applyTslib_migrate (aP aD : StrMap) (pj : PackageJson)
    (hp : jsTruthy (depOf pj.peerDependencies "tslib") = true) :
    applyTslib aP aD pj =
      ({ pj with
          dependencies := some (alSet (pj.dependencies.getD []) "tslib"
            ((depOf pj.peerDependencies "tslib").getD ""))
          peerDependencies := some (alDelete (pj.peerDependencies.getD []) "tslib") },
        [tslibMigrationWarning]) := by
  simp [applyTslib, hp]

theorem applyTslib_dep_keys (aP aD : StrMap) (pj : PackageJson) (d : String)
    (hd : d ∈ (pj.dependencies.getD []).map Prod.fst) :
    ∃ dm, (applyTslib aP aD pj).1.dependencies = some dm ∧ d ∈ dm.map Prod.fst := by
  simp only [applyTslib]
  split
  · split
    · exact ⟨_, rfl, mem_keys_alSet _ _ _ _ hd⟩
    · cases hdep : pj.dependencies with
      | none => rw [hdep] at hd; cases hd
      | some dm => exact ⟨dm, rfl, by rw [hdep] at hd; exact hd⟩
  · split
    · exact ⟨_, rfl, mem_keys_alSet _ _ _ _ hd⟩
    · cases hdep : pj.dependencies with
      | none => rw [hdep] at hd; cases hd
      | some dm => exact ⟨dm, rfl, by rw [hdep] at hd; exact hd⟩

theorem checkDepKeys_error_of_unmatched (property : String)
    (allowed : List (String → Bool)) (l : List String) (d : String) (hd : d ∈ l)
    (hun : ∀ test ∈ allowed, test d = false) :
    ∃ d0, (∀ test ∈ allowed, test d0 = false) ∧
      checkDepKeys property allowed l =
        ([depNotRecommendedWarning property d0], some (depNotAllowedError d0)) := by
  induction l with
  | nil => cases hd
  | cons x rest ih =>
    by_cases hx : rest = rest
    · by_cases hany : List.any allowed (fun test => test x) = true
      · have hd' : d ∈ rest := by
          rcases List.mem_cons.mp hd with h | h
          · subst h
            rcases List.any_eq_true.mp hany with ⟨t, ht, htt⟩
            rw [hun t ht] at htt
            cases htt
          · exact h
        obtain ⟨d0, h1, h2⟩ := ih hd'
        refine ⟨d0, h1, ?_⟩
        unfold checkDepKeys
        rw [if_pos hany, h2]
      · refine ⟨x, ?_, ?_⟩
        · intro t ht
          by_contra hc
          refine hany (List.any_eq_true.mpr ⟨t, ht, ?_⟩)
          revert hc
          cases t x <;> simp
        · unfold checkDepKeys
          rw [if_neg hany]
    · exact absurd rfl hx

/-- C6: when a manifest is written, a compilation mode other than
"partial" (including an undefined mode) makes its scripts.prepublishOnly
entry the injected failure guard, while in "partial" mode no guard is
present — the prepublishOnly entry, if any, is the user-declared script
surviving scripts hygiene, which by hypothesis is not the guard text. -/
theorem c6_publish_guard (destinationPath moduleId : String) (declared : PackageJson)
    (ap : AdditionalProps) (watch : Bool) (now : Nat) (mode : Option String)
    (aP aD : StrMap) (allowed : List (String → Bool)) (keep : Bool) (m : PackageJson)
    (hng : getScript declared "prepublishOnly" ≠ some prepublishOnlyGuard)
    (hm : writtenManifest (writePackageJson destinationPath moduleId declared ap watch now
        mode aP aD allowed keep) = some m) :
    (mode ≠ some "partial" → getScript m "prepublishOnly" = some prepublishOnlyGuard) ∧
    (mode = some "partial" → getScript m "prepublishOnly" ≠ some prepublishOnlyGuard) := by
  rw [writePackageJson_def] at hm
  obtain ⟨hchk, hmeq⟩ := writtenManifest_writeOutcome _ _ _ _ _ _ _ hm
  subst hmeq
  rw [getScript_finalManifest]
  constructor
  · intro hmode
    rw [if_neg hmode]
  · intro hmode
    rw [if_pos hmode]
    cases keep
    · simp
    · rw [if_pos rfl]
      rw [getScript_eq_of_scripts_eq _ declared _ (assembled_scripts declared ap watch now aP aD)]
      exact hng

set_option maxRecDepth 8000 in
/-- C6 (witness): a concrete non-partial run whose written manifest holds
the guard script. -/
theorem c6_witness :
    getScript ((writtenManifest (writePackageJson "/pkg/dist" "lib"
        { scripts := some [("prepublishOnly", "echo hi")] }
        { moduleField := "./f.mjs", typings := "./t.d.ts", exports := [], sideEffects := false }
        false 0 none [("tslib", "^2.3.0")] [] [fun _ => true] true)).getD {})
      "prepublishOnly" = some prepublishOnlyGuard :=
  (c6_publish_guard "/pkg/dist" "lib"
    { scripts := some [("prepublishOnly", "echo hi")] }
    { moduleField := "./f.mjs", typings := "./t.d.ts", exports := [], sideEffects := false }
    false 0 none [("tslib", "^2.3.0")] [] [fun _ => true] true _
    (by decide) (by decide)).1 (by decide)

/-- C10: in a non-partial compilation mode, even when the package retains
lifecycle scripts and the declared manifest fragment carries its own
prepublishOnly script, the written manifest's prepublishOnly entry is the
injected failure guard: guard injection unconditionally replaces the
surviving user-declared value. -/
theorem c10_guard_overrides_user_script (destinationPath moduleId : String)
    (declared : PackageJson) (ap : AdditionalProps) (watch : Bool) (now : Nat)
    (mode : Option String) (aP aD : StrMap) (allowed : List (String → Bool))
    (m : PackageJson) (userScript : String)
    (hmode : mode ≠ some "partial")
    (hdecl : getScript declared "prepublishOnly" = some userScript)
    (hm : writtenManifest (writePackageJson destinationPath moduleId declared ap watch now
        mode aP aD allowed true) = some m) :
    getScript m "prepublishOnly" = some prepublishOnlyGuard := by
  rw [writePackageJson_def] at hm
  obtain ⟨hchk, hmeq⟩ := writtenManifest_writeOutcome _ _ _ _ _ _ _ hm
  subst hmeq
  rw [getScript_finalManifest, if_neg hmode]

set_option maxRecDepth 8000 in
/-- C10 (witness): the theorem applied at a concrete full-mode run with a
user-declared prepublishOnly script and keepLifecycleScripts on. -/
theorem c10_witness :
    getScript ((writtenManifest (writePackageJson "/pkg/dist" "lib"
        { scripts := some [("prepublishOnly", "echo mine")] }
        { moduleField := "./f.mjs", typings := "./t.d.ts", exports := [], sideEffects := false }
        false 0 (some "full") [("tslib", "^2.3.0")] [] [fun _ => true] true)).getD {})
      "prepublishOnly" = some prepublishOnlyGuard :=
  c10_guard_overrides_user_script "/pkg/dist" "lib"
    { scripts := some [("prepublishOnly", "echo mine")] }
    { moduleField := "./f.mjs", typings := "./t.d.ts", exports := [], sideEffects := false }
    false 0 (some "full") [("tslib", "^2.3.0")] [] [fun _ => true] _ "echo mine"
    (by decide) (by decide) (by decide)

/-- C3: when the declared dependencies contain an entry matched by no
allow-list pattern, manifest assembly performs exactly one filesystem
operation — the recursive removal of the entry point's destination
directory, leaving it absent — writes no manifest file, and propagates a
fatal error naming an unmatched dependency (the first one in key order). -/
theorem c3_dependency_gate_rollback (destinationPath moduleId : String)
    (declared : PackageJson) (ap : AdditionalProps) (watch : Bool) (now : Nat)
    (mode : Option String) (aP aD : StrMap) (allowed : List (String → Bool)) (keep : Bool)
    (d : String) (hd : d ∈ (declared.dependencies.getD []).map Prod.fst)
    (hun : ∀ test ∈ allowed, test d = false) :
    ∃ d0, (∀ test ∈ allowed, test d0 = false) ∧
      writePackageJson destinationPath moduleId declared ap watch now mode aP aD allowed
          keep =
        { ops := [FsOp.rmdirRecursive destinationPath]
          warnings := (assembledBeforeCheck declared ap watch now aP aD).2 ++
            [depNotRecommendedWarning "dependencies" d0]
          infos := []
          err := some (depNotAllowedError d0) } := by
  have hd1 : d ∈ ((mergedWatch declared ap watch now).dependencies.getD []).map
      Prod.fst := by
    unfold mergedWatch
    cases watch <;> exact hd
  obtain ⟨dm, hdm, hdmem⟩ := applyTslib_dep_keys aP aD _ d hd1
  obtain ⟨d0, h0, hchk⟩ :=
    checkDepKeys_error_of_unmatched "dependencies" allowed (dm.map Prod.fst) d hdmem hun
  refine ⟨d0, h0, ?_⟩
  have hc : checkNonPeerDependencies
      (assembledBeforeCheck declared ap watch now aP aD).1.dependencies
      "dependencies" allowed =
      ([depNotRecommendedWarning "dependencies" d0], some (depNotAllowedError d0)) := by
    unfold assembledBeforeCheck
    rw [hdm]
    unfold checkNonPeerDependencies
    exact hchk
  rw [writePackageJson_def, hc]
  rfl

/-- C3 (witness): a declared left-pad dependency with an empty allow-list
makes the write fail with rollback at a concrete input. -/
theorem c3_witness :
    ("left-pad" ∈ ((some [("left-pad", "^1.0.0")] : Option StrMap).getD []).map Prod.fst) ∧
    (∃ d0, (∀ test ∈ ([] : List (String → Bool)), test d0 = false) ∧
      writePackageJson "/pkg/dist" "lib" { dependencies := some [("left-pad", "^1.0.0")] }
          { moduleField := "./f.mjs", typings := "./t.d.ts", exports := [],
            sideEffects := false }
          false 0 none [("tslib", "^2.3.0")] [] [] false =
        { ops := [FsOp.rmdirRecursive "/pkg/dist"]
          warnings := (assembledBeforeCheck { dependencies := some [("left-pad", "^1.0.0")] }
              { moduleField := "./f.mjs", typings := "./t.d.ts", exports := [],
                sideEffects := false }
              false 0 [("tslib", "^2.3.0")] []).2 ++
            [depNotRecommendedWarning "dependencies" d0]
          infos := []
          err := some (depNotAllowedError d0) }) :=
  ⟨by decide,
    c3_dependency_gate_rollback "/pkg/dist" "lib"
      { dependencies := some [("left-pad", "^1.0.0")] }
      { moduleField := "./f.mjs", typings := "./t.d.ts", exports := [], sideEffects := false }
      false 0 none [("tslib", "^2.3.0")] [] [] false "left-pad" (by decide) (by simp)⟩


/-- C8: when a manifest is written, (a) if neither declared dependencies
nor peerDependencies truthily carry tslib and the compiler toolchain
metadata declares a tslib version, that version is injected into the
written manifest's dependencies; (b) if the declared peerDependencies
truthily carry tslib, the written manifest has that entry moved into
dependencies with its declared version, tslib absent from
peerDependencies, and the migration warning among the run's warnings. -/
theorem c8_tslib_handling (destinationPath moduleId : String) (declared : PackageJson)
    (ap : AdditionalProps) (watch : Bool) (now : Nat) (mode : Option String)
    (aP aD : StrMap) (allowed : List (String → Bool)) (keep : Bool) (m : PackageJson)
    (hm : writtenManifest (writePackageJson destinationPath moduleId declared ap watch now
        mode aP aD allowed keep) = some m) :
    ((jsTruthy (depOf declared.peerDependencies "tslib") = false ∧
        jsTruthy (depOf declared.dependencies "tslib") = false ∧
        jsTruthy (angularTslibVersion aP aD) = true) →
      depOf m.dependencies "tslib" = angularTslibVersion aP aD) ∧
    (jsTruthy (depOf declared.peerDependencies "tslib") = true →
      depOf m.dependencies "tslib" = depOf declared.peerDependencies "tslib" ∧
      depOf m.peerDependencies "tslib" = none ∧
      tslibMigrationWarning ∈ (writePackageJson destinationPath moduleId declared ap watch
        now mode aP aD allowed keep).warnings) := by
  rw [writePackageJson_def] at hm
  obtain ⟨hchk, hmeq⟩ := writtenManifest_writeOutcome _ _ _ _ _ _ _ hm
  subst hmeq
  have hfin := finalManifest_fields
    (assembledBeforeCheck declared ap watch now aP aD).1 mode keep moduleId
  have hpj1d : (mergedWatch declared ap watch now).dependencies = declared.dependencies := by
    unfold mergedWatch
    cases watch <;> rfl
  have hpj1p : (mergedWatch declared ap watch now).peerDependencies =
      declared.peerDependencies := by
    unfold mergedWatch
    cases watch <;> rfl
  constructor
  · rintro ⟨hp, hd, ht⟩
    have hinj := applyTslib_inject aP aD (mergedWatch declared ap watch now)
      (by rw [hpj1p]; exact hp) (by rw [hpj1d]; exact hd) ht
    have hdeps : (assembledBeforeCheck declared ap watch now aP aD).1.dependencies =
        some (alSet (declared.dependencies.getD []) "tslib"
          ((angularTslibVersion aP aD).getD "")) := by
      unfold assembledBeforeCheck
      rw [hinj, hpj1d]
    rw [hfin.1, hdeps]
    show alGet (alSet (declared.dependencies.getD []) "tslib"
      ((angularTslibVersion aP aD).getD "")) "tslib" = angularTslibVersion aP aD
    rw [alGet_alSet_self]
    exact (jsTruthy_eq_some _ ht).symm
  · intro hp
    have hmig := applyTslib_migrate aP aD (mergedWatch declared ap watch now)
      (by rw [hpj1p]; exact hp)
    have hdeps : (assembledBeforeCheck declared ap watch now aP aD).1.dependencies =
        some (alSet (declared.dependencies.getD []) "tslib"
          ((depOf declared.peerDependencies "tslib").getD "")) := by
      unfold assembledBeforeCheck
      rw [hmig, hpj1d, hpj1p]
    have hpeers : (assembledBeforeCheck declared ap watch now aP aD).1.peerDependencies =
        some (alDelete (declared.peerDependencies.getD []) "tslib") := by
      unfold assembledBeforeCheck
      rw [hmig, hpj1p]
    have hwarn : (assembledBeforeCheck declared ap watch now aP aD).2 =
        [tslibMigrationWarning] := by
      unfold assembledBeforeCheck
      rw [hmig]
    refine ⟨?_, ?_, ?_⟩
    · rw [hfin.1, hdeps]
      show alGet (alSet (declared.dependencies.getD []) "tslib"
        ((depOf declared.peerDependencies "tslib").getD "")) "tslib" =
        depOf declared.peerDependencies "tslib"
      rw [alGet_alSet_self]
      exact (jsTruthy_eq_some _ hp).symm
    · rw [hfin.2.1, hpeers]
      show alGet (alDelete (declared.peerDependencies.getD []) "tslib") "tslib" = none
      exact alGet_alDelete_self _ _
    · rw [writePackageJson_def, writeOutcome_ok_warnings _ _ _ _ _ _ hchk, hwarn]
      simp

set_option maxRecDepth 8000 in
/-- C8 (witness): the peer-to-dependencies migration branch at a concrete
input. -/
theorem c8_witness :
    depOf ((writtenManifest (writePackageJson "/pkg/dist" "lib"
        { peerDependencies := some [("tslib", "^2.2.0")] }
        { moduleField := "./f.mjs", typings := "./t.d.ts", exports := [],
          sideEffects := false }
        false 0 none [("tslib", "^2.3.0")] [] [fun _ => true] false)).getD {}).dependencies
      "tslib" = some "^2.2.0" ∧
    depOf ((writtenManifest (writePackageJson "/pkg/dist" "lib"
        { peerDependencies := some [("tslib", "^2.2.0")] }
        { moduleField := "./f.mjs", typings := "./t.d.ts", exports := [],
          sideEffects := false }
        false 0 none [("tslib", "^2.3.0")] [] [fun _ => true] false)).getD {}).peerDependencies
      "tslib" = none ∧
    tslibMigrationWarning ∈ (writePackageJson "/pkg/dist" "lib"
        { peerDependencies := some [("tslib", "^2.2.0")] }
        { moduleField := "./f.mjs", typings := "./t.d.ts", exports := [],
          sideEffects := false }
        false 0 none [("tslib", "^2.3.0")] [] [fun _ => true] false).warnings :=
  (c8_tslib_handling "/pkg/dist" "lib"
    { peerDependencies := some [("tslib", "^2.2.0")] }
    { moduleField := "./f.mjs", typings := "./t.d.ts", exports := [], sideEffects := false }
    false 0 none [("tslib", "^2.3.0")] [] [fun _ => true] false _ (by decide)).2 (by decide)

/-- C9: worker pool construction defaults the atomics synchronization to
"sync", switched to "disabled" when the webcontainer runtime indicator is
truthy; a truthy RUNFILES indicator suppresses compile-cache propagation
entirely, leaving the worker env exactly as the caller supplied it; and
otherwise a reported (truthy) compile cache directory is propagated into
the worker env under NODE_COMPILE_CACHE, spreading the process env when
the caller supplied no env object. -/
theorem c9_worker_pool_config (options : PoolOptions)
    (webcontainerVersion runfilesVar compileCacheDir : Option String)
    (processEnv : StrMap)
    (hatomics : options.atomics = none) :
    (workerPoolOptions options webcontainerVersion runfilesVar compileCacheDir
        processEnv).atomics =
      some (if jsTruthy webcontainerVersion then "disabled" else "sync") ∧
    (jsTruthy runfilesVar = true →
      (workerPoolOptions options webcontainerVersion runfilesVar compileCacheDir
        processEnv).env = options.env) ∧
    (jsTruthy runfilesVar = false → ∀ d, compileCacheDir = some d → d ≠ "" →
      ∃ e, (workerPoolOptions options webcontainerVersion runfilesVar compileCacheDir
          processEnv).env = some e ∧ alGet e "NODE_COMPILE_CACHE" = some d) := by
  refine ⟨?_, ?_, ?_⟩
  · simp only [workerPoolOptions]
    by_cases h :
        jsTruthy (if jsTruthy runfilesVar = true then none else compileCacheDir) = true
    · rw [if_pos h, hatomics]
      cases options.env <;> rfl
    · rw [if_neg h, hatomics]
      rfl
  · intro hr
    simp only [workerPoolOptions, hr]
    rw [show (if True then (none : Option String) else compileCacheDir) = none
      from if_pos trivial]
    rw [if_neg (by simp [jsTruthy] : ¬ jsTruthy (none : Option String) = true)]
  · intro hr d hd hne
    simp only [workerPoolOptions, hr, hd]
    rw [show (if (false = true) then (none : Option String) else some d) = some d from rfl]
    have hcond : jsTruthy (some d) = true := by simp [jsTruthy, hne]
    rw [if_pos hcond]
    cases options.env with
    | some e0 => exact ⟨_, rfl, by simp [alGet_alSet_self]⟩
    | none => exact ⟨_, rfl, by simp [alGet_alSet_self]⟩

/-- C9 (witness): the theorem applied with the webcontainer indicator set,
no RUNFILES, a reported cache directory and no caller env. -/
theorem c9_witness :
    (workerPoolOptions {} (some "1.0") none (some "/cache")
        [("PATH", "/bin")]).atomics = some "disabled" ∧
    (∃ e, (workerPoolOptions {} (some "1.0") none (some "/cache")
        [("PATH", "/bin")]).env = some e ∧ alGet e "NODE_COMPILE_CACHE" = some "/cache") :=
  ⟨(c9_worker_pool_config {} (some "1.0") none (some "/cache") [("PATH", "/bin")] rfl).1,
    (c9_worker_pool_config {} (some "1.0") none (some "/cache") [("PATH", "/bin")]
      rfl).2.2 rfl "/cache" rfl (by decide)⟩

/-! ## Lemmas: decimal rendering and the watch version order -/

theorem toDigitsCore_eq_decDigits : ∀ (fuel n : Nat) (ds : List Char), n < fuel →
    Nat.toDigitsCore 10 fuel n ds = decDigits n ++ ds := by
  intro fuel
  induction fuel with
  | zero => intro n ds h; omega
  | succ f ih =>
    intro n ds h
    simp only [Nat.toDigitsCore]
    by_cases h10 : n / 10 = 0
    · rw [if_pos h10, decDigits, if_pos (by omega : n < 10)]
      rfl
    · have he2 : decDigits n = decDigits (n / 10) ++ [Nat.digitChar (n % 10)] := by
        rw [decDigits, if_neg (by omega : ¬ n < 10)]
      rw [if_neg h10, ih (n / 10) (Nat.digitChar (n % 10) :: ds) (by omega), he2]
      simp

theorem repr_data_eq_decDigits (n : Nat) : (Nat.repr n).data = decDigits n := by
  show ((Nat.toDigitsCore 10 (n + 1) n []).asString).data = decDigits n
  rw [toDigitsCore_eq_decDigits (n + 1) n [] (Nat.lt_succ_self n)]
  simp [List.asString]

theorem decDigits_length_eq_one (n : Nat) (h : n < 10) : (decDigits n).length = 1 := by
  rw [decDigits, if_pos h]
  rfl

theorem decDigits_length_of_ge (n : Nat) (h : ¬ n < 10) :
    (decDigits n).length = (decDigits (n / 10)).length + 1 := by
  rw [decDigits, if_neg h]
  simp

theorem decDigits_length_pos (n : Nat) : 0 < (decDigits n).length := by
  rw [decDigits]
  split <;> simp

theorem digitChar_mono : ∀ x, x < 10 → ∀ y, y < 10 → x < y →
    Nat.digitChar x < Nat.digitChar y := by decide

theorem lex_append_left (p a b : List Char) (h : List.Lex (· < ·) a b) :
    List.Lex (· < ·) (p ++ a) (p ++ b) := by
  induction p with
  | nil => exact h
  | cons c rest ih => exact List.Lex.cons ih

theorem lex_append_of_length_eq (a b t1 t2 : List Char)
    (h : List.Lex (· < ·) a b) : a.length = b.length →
    List.Lex (· < ·) (a ++ t1) (b ++ t2) := by
  induction h with
  | nil => intro hlen; simp at hlen
  | rel hr => intro _; exact List.Lex.rel hr
  | cons h ih => intro hlen; exact List.Lex.cons (ih (by simpa using hlen))

theorem decDigits_lex (a : Nat) : ∀ b : Nat, a < b →
    (decDigits a).length = (decDigits b).length →
    List.Lex (· < ·) (decDigits a) (decDigits b) := by
  induction a using Nat.strong_induction_on with
  | _ a ih =>
    intro b hab hlen
    by_cases ha : a < 10
    · by_cases hb : b < 10
      · rw [decDigits, if_pos ha, decDigits, if_pos hb]
        exact List.Lex.rel (digitChar_mono (a % 10) (by omega) (b % 10) (by omega) (by omega))
      · rw [decDigits_length_eq_one a ha, decDigits_length_of_ge b hb] at hlen
        have := decDigits_length_pos (b / 10)
        omega
    · have hb : ¬ b < 10 := by omega
      rw [decDigits_length_of_ge a ha, decDigits_length_of_ge b hb] at hlen
      have hlen2 : (decDigits (a / 10)).length = (decDigits (b / 10)).length := by omega
      have hea : decDigits a = decDigits (a / 10) ++ [Nat.digitChar (a % 10)] := by
        rw [decDigits, if_neg ha]
      have heb : decDigits b = decDigits (b / 10) ++ [Nat.digitChar (b % 10)] := by
        rw [decDigits, if_neg hb]
      rw [hea, heb]
      rcases Nat.lt_or_ge (a / 10) (b / 10) with hlt | hge
      · exact lex_append_of_length_eq _ _ _ _
          (ih (a / 10) (Nat.div_lt_self (by omega) (by omega)) (b / 10) hlt hlen2) hlen2
      · have heq : a / 10 = b / 10 :=
          Nat.le_antisymm (Nat.div_le_div_right (Nat.le_of_lt hab)) hge
        rw [heq]
        exact lex_append_left _ _ _
          (List.Lex.rel (digitChar_mono (a % 10) (by omega) (b % 10) (by omega) (by omega)))

theorem string_data_append (s t : String) : (s ++ t).data = s.data ++ t.data := by
  cases s
  cases t
  rfl

theorem string_length_data (s : String) : s.length = s.data.length := by
  cases s
  rfl

/-- C7 (counterexample): the pseudo-version string is the timestamp
rendered in decimal after a fixed prefix, and the standard lexicographic
order on strings is not monotonic across a change in digit count: at the
13-to-14-digit rollover (timestamps for November 2286), the later
timestamp yields a string that is NOT greater, refuting strict
monotonicity for arbitrary timestamps t1 < t2. -/
theorem c7_counterexample :
    9999999999999 < 10000000000000 ∧
      ¬ generateWatchVersion 9999999999999 < generateWatchVersion 10000000000000 := by
  constructor
  · omega
  · intro hlt
    rw [String.lt_iff_toList_lt] at hlt
    revert hlt
    decide

/-- C7 (amended): in watch mode the version written into the manifest is
the pseudo-version derived from the current timestamp, and for two
timestamps t1 < t2 whose decimal renderings have the same number of
digits — true for every pair of wall-clock instants between September
2001 and November 2286 — the derived version strings are strictly
increasing in the lexicographic string order. -/
theorem c7_watch_version_monotonic (t1 t2 : Nat)
    (h12 : t1 < t2) (hlen : (toString t1).length = (toString t2).length)
    (destinationPath moduleId : String) (declared : PackageJson) (ap : AdditionalProps)
    (now : Nat) (mode : Option String) (aP aD : StrMap)
    (allowed : List (String → Bool)) (keep : Bool) (m : PackageJson)
    (hm : writtenManifest (writePackageJson destinationPath moduleId declared ap true now
        mode aP aD allowed keep) = some m) :
    generateWatchVersion t1 < generateWatchVersion t2 ∧
      m.version = some (generateWatchVersion now) := by
  constructor
  · rw [String.lt_iff_toList_lt]
    show ("0.0.0-watch+" ++ toString t1).data < ("0.0.0-watch+" ++ toString t2).data
    rw [string_data_append, string_data_append]
    show List.Lex (· < ·) _ _
    apply lex_append_left
    have h1 : (toString t1).data = decDigits t1 := repr_data_eq_decDigits t1
    have h2 : (toString t2).data = decDigits t2 := repr_data_eq_decDigits t2
    rw [h1, h2]
    apply decDigits_lex t1 t2 h12
    rw [← h1, ← h2, ← string_length_data, ← string_length_data]
    exact hlen
  · rw [writePackageJson_def] at hm
    obtain ⟨hchk, hmeq⟩ := writtenManifest_writeOutcome _ _ _ _ _ _ _ hm
    subst hmeq
    rw [(finalManifest_fields _ _ _ _).2.2, assembled_version]
    rfl

set_option maxRecDepth 8000 in
/-- C7 (witness): the amended theorem applied at two concrete same-length
timestamps and a concrete watch-mode run. -/
theorem c7_witness :
    generateWatchVersion 1700000000000 < generateWatchVersion 1700000000001 ∧
      ((writtenManifest (writePackageJson "/pkg/dist" "lib" {}
          { moduleField := "./f.mjs", typings := "./t.d.ts", exports := [],
            sideEffects := false }
          true 42 none [("tslib", "^2.3.0")] [] [fun _ => true] false)).getD {}).version =
        some (generateWatchVersion 42) :=
  c7_watch_version_monotonic 1700000000000 1700000000001 (by omega) (by decide)
    "/pkg/dist" "lib" {}
    { moduleField := "./f.mjs", typings := "./t.d.ts", exports := [], sideEffects := false }
    42 none [("tslib", "^2.3.0")] [] [fun _ => true] false _ (by decide)
